import Mathlib

/-!
Verification of the movie-club ranking engine.

Shallow embedding of the core ranking services:
  * `RatingCalculator.calculateRating` (backend/src/services/ranking/ratingCalculator.ts)
  * `RankingAlgorithm.findInsertionPosition` / `processComparisonResult`
    (backend/src/services/ranking/rankingAlgorithm.ts)
  * `ComparisonEngine.startComparisonSession` / `submitComparison` /
    `completeRanking` / `getSession` / `cancelSession`
    (backend/src/services/ranking/comparisonEngine.ts)
  * the session cache (backend/src/services/cache/rankingCache.ts), as an
    association list.

JS numbers are modelled by `ℚ` (the arithmetic performed by the code stays
within exactly representable decimal values for the properties considered;
`Math.round x` is `⌊x + 1/2⌋`, `Math.floor (a / 2)` on integers is
integer floor division, which for the nonnegative divisor 2 is `Int.ediv`,
Mathlib's `/` on `ℤ`). Thrown JS errors are modelled with `Except String`.
-/

instance {ε α : Type} [DecidableEq ε] [DecidableEq α] : DecidableEq (Except ε α) :=
  fun x y =>
    match x, y with
    | .ok a, .ok b =>
        if h : a = b then isTrue (by rw [h])
        else isFalse (by intro hc; cases hc; exact h rfl)
    | .ok _, .error _ => isFalse (by intro hc; cases hc)
    | .error _, .ok _ => isFalse (by intro hc; cases hc)
    | .error e, .error f =>
        if h : e = f then isTrue (by rw [h])
        else isFalse (by intro hc; cases hc; exact h rfl)

/-- The three fixed categories (`Category` in categoryManager.ts). -/
inductive Category : Type
  | liked
  | ok
  | disliked
deriving DecidableEq, Repr

/-- `categoryRanges[category].top` from ratingCalculator.ts. -/
def categoryTop : Category → ℚ
  | .liked => 10.0
  | .ok => 6.4
  | .disliked => 3.4

/-- `categoryRanges[category].bottom` from ratingCalculator.ts. -/
def categoryBottom : Category → ℚ
  | .liked => 6.5
  | .ok => 3.5
  | .disliked => 0.0

/-- JS `Math.round` (round half toward positive infinity). -/
def jsRound (x : ℚ) : ℤ := ⌊x + 1 / 2⌋

/-- `Math.round (x * 100) / 100`: round to two decimal places. -/
def roundTo2 (x : ℚ) : ℚ := (jsRound (x * 100) : ℚ) / 100

/-- `RatingCalculator.calculateRating` (ratingCalculator.ts, lines 12-31).
Throws on an empty category; returns `top` for a singleton category;
otherwise linearly interpolates and rounds to two decimals. -/
def calculateRating (rank : ℤ) (totalInCategory : ℤ) (category : Category) :
    Except String ℚ :=
  let top := categoryTop category
  let bottom := categoryBottom category
  if totalInCategory = 0 then
    .error "Cannot calculate rating with 0 movies in category"
  else if totalInCategory = 1 then
    .ok top
  else
    .ok (roundTo2 (top - (((rank : ℚ) - 1) * (top - bottom)) / ((totalInCategory : ℚ) - 1)))

/-- The bands exactly as the claim states them: `[bottom, top]` per category. -/
def specBandBottom : Category → ℚ
  | .liked => 6.5
  | .ok => 3.5
  | .disliked => 0.0

/-- Top of the band as the claim states it. -/
def specBandTop : Category → ℚ
  | .liked => 10.0
  | .ok => 6.4
  | .disliked => 3.4

/-- `searchRange` of `BinarySearchState` (rankingAlgorithm.ts). -/
structure SearchRange where
  low : ℤ
  high : ℤ
deriving DecidableEq, Repr

/-- The `winner` field of a `ComparisonResult` (rankingAlgorithm.ts, line 5). -/
inductive Winner : Type
  | new
  | existing
  | tie
deriving DecidableEq, Repr

/-- `ComparisonResult` (rankingAlgorithm.ts, lines 4-8); Mongo object ids are
modelled by naturals. -/
structure CompResult where
  winner : Winner
  newMovieId : ℕ
  existingMovieId : ℕ
deriving DecidableEq, Repr

/-- The slice of an `IRanking` document that the ranking algorithm reads:
its movie id and its position in the category. -/
structure RankEntry where
  movieId : ℕ
  rankInCategory : ℤ
deriving DecidableEq, Repr

/-- `BinarySearchState` (rankingAlgorithm.ts, lines 10-20). -/
structure BinarySearchState where
  category : Category
  userId : ℕ
  newMovieId : ℕ
  searchRange : SearchRange
  comparisons : List CompResult
  currentComparisonIndex : Option ℤ := none
deriving DecidableEq, Repr

/-- `Math.floor((low + high) / 2)`; `Int` floor division by the positive
constant 2 is Mathlib's `/` on `ℤ`. -/
def searchMidpoint (r : SearchRange) : ℤ := (r.low + r.high) / 2

/-- Result of `RankingAlgorithm.findInsertionPosition`: either a movie to
compare against, or a final insertion position. -/
inductive FindResult : Type
  | compare (movieToCompare : RankEntry)
  | final (finalPosition : ℤ)
deriving DecidableEq, Repr

/-- `RankingAlgorithm.findInsertionPosition` (rankingAlgorithm.ts, lines
23-58) with `handlePreviousComparison` (lines 60-77) inlined as the
recursive calls it makes. -/
def findInsertionPosition (state : BinarySearchState)
    (existingRankings : List RankEntry) : FindResult :=
  if existingRankings.length = 0 then
    .final 1
  else if h : state.searchRange.low > state.searchRange.high then
    .final state.searchRange.low
  else
    let mid := searchMidpoint state.searchRange
    match existingRankings.find? (fun r => r.rankInCategory == mid) with
    | none => .final mid
    | some movieToCompare =>
      match state.comparisons.find? (fun c => c.existingMovieId == movieToCompare.movieId) with
      | none => .compare movieToCompare
      | some previousComparison =>
        match previousComparison.winner with
        | .new =>
            findInsertionPosition
              { state with searchRange := ⟨state.searchRange.low, mid - 1⟩ }
              existingRankings
        | .existing =>
            findInsertionPosition
              { state with searchRange := ⟨mid + 1, state.searchRange.high⟩ }
              existingRankings
        | .tie => .final (mid + 1)
termination_by (state.searchRange.high - state.searchRange.low + 1).toNat
decreasing_by
  · simp only [searchMidpoint] at *
    omega
  · simp only [searchMidpoint] at *
    omega

/-- `RankingAlgorithm.processComparisonResult` (rankingAlgorithm.ts, lines
79-100): push the result onto the log and shrink the search range around
the probed midpoint. -/
def processComparisonResult (state : BinarySearchState) (result : CompResult) :
    BinarySearchState :=
  let comparisons := state.comparisons ++ [result]
  let mid := searchMidpoint state.searchRange
  match result.winner with
  | .new =>
      { state with
        comparisons := comparisons
        searchRange := ⟨state.searchRange.low, mid - 1⟩ }
  | .existing =>
      { state with
        comparisons := comparisons
        searchRange := ⟨mid + 1, state.searchRange.high⟩ }
  | .tie =>
      { state with
        comparisons := comparisons
        searchRange := ⟨mid + 1, mid⟩ }

/-- Repeatedly feed comparison results into `processComparisonResult`, as
`ComparisonEngine.submitComparison` does; the engine only accepts a result
while the session is still searching (`low ≤ high`), so the run freezes
once the range has collapsed. -/
def runComparisons (state : BinarySearchState) : List CompResult → BinarySearchState
  | [] => state
  | r :: rs =>
    if state.searchRange.low ≤ state.searchRange.high then
      runComparisons (processComparisonResult state r) rs
    else state

/-- A document in the `Movie` store: its external (TMDB) id and its internal
object id, both modelled by naturals. -/
structure MovieDoc where
  tmdbId : ℕ
  movieId : ℕ
deriving DecidableEq, Repr

/-- A `UserRanking` document (models/UserRanking.ts): the fields the ranking
engine reads and writes. -/
structure DbRanking where
  userId : ℕ
  movieId : ℕ
  tmdbId : ℕ
  category : Category
  rankInCategory : ℤ
  calculatedRating : ℚ
  wonAgainst : List ℕ
  lostTo : List ℕ
  tiedWith : List ℕ
deriving DecidableEq, Repr

/-- `CategoryManager.getRankingsInCategory` (categoryManager.ts): the
(user, category) entries sorted by ascending position. -/
def getRankingsInCategory (userId : ℕ) (category : Category)
    (db : List DbRanking) : List DbRanking :=
  (db.filter (fun r => r.userId == userId && r.category == category)).mergeSort
    (fun a b => a.rankInCategory ≤ b.rankInCategory)

/-- `CategoryManager.getMovieCountInCategory`: `countDocuments` over the
(user, category) bucket. -/
def getMovieCountInCategory (userId : ℕ) (category : Category)
    (db : List DbRanking) : ℕ :=
  (db.filter (fun r => r.userId == userId && r.category == category)).length

/-- `CategoryManager.shiftRankingsDown` (categoryManager.ts, lines 163-178):
`updateMany` incrementing the position of every (user, category) entry with
`rankInCategory ≥ fromRank`. -/
def shiftRankingsDown (userId : ℕ) (category : Category) (fromRank : ℤ)
    (db : List DbRanking) : List DbRanking :=
  db.map (fun r =>
    if r.userId = userId ∧ r.category = category ∧ fromRank ≤ r.rankInCategory then
      { r with rankInCategory := r.rankInCategory + 1 }
    else r)

/-- The bulk update performed by
`RatingCalculator.recalculateRatingsForCategory`: each (user, category)
entry's rating is recomputed from its position and the given category total;
a thrown `calculateRating` error propagates. -/
def applyRatings (userId : ℕ) (category : Category) (total : ℤ) :
    List DbRanking → Except String (List DbRanking)
  | [] => .ok []
  | r :: rest =>
    if r.userId = userId ∧ r.category = category then
      match calculateRating r.rankInCategory total category with
      | .error msg => .error msg
      | .ok q => (applyRatings userId category total rest).map
          (fun l => { r with calculatedRating := q } :: l)
    else
      (applyRatings userId category total rest).map (fun l => r :: l)

/-- `RatingCalculator.recalculateRatingsForCategory` (ratingCalculator.ts,
lines 33-67): recompute every rating in the (user, category) bucket from the
current category size, in one bulk update. -/
def recalculateRatingsForCategory (userId : ℕ) (category : Category)
    (db : List DbRanking) : Except String (List DbRanking) :=
  applyRatings userId category
    ((getMovieCountInCategory userId category db : ℕ) : ℤ) db

/-- `ComparisonSession` (comparisonEngine.ts, lines 10-27). The
`currentComparison` pair holds the (movie1, movie2) internal ids; the
`createdAt`/`updatedAt` timestamps are not modelled (no claim is about
real time). -/
structure ComparisonSession where
  id : ℕ
  userId : ℕ
  newMovieTmdbId : ℕ
  newMovieId : ℕ
  category : Category
  state : BinarySearchState
  currentComparison : Option (ℕ × ℕ) := none
  completed : Bool
  finalPosition : Option ℤ := none
deriving DecidableEq, Repr

/-- The stores the comparison engine works against: the `Movie` collection,
the `UserRanking` collection, the in-memory `sessions` map and the secondary
`rankingCache` session store (both keyed by session id, as association
lists). -/
structure EngineState where
  movies : List MovieDoc
  db : List DbRanking
  sessions : List (ℕ × ComparisonSession)
  cache : List (ℕ × ComparisonSession)
deriving DecidableEq, Repr

/-- `Map.get` on a session map. -/
def lookupSession (sid : ℕ) : List (ℕ × ComparisonSession) → Option ComparisonSession
  | [] => none
  | (k, s) :: rest => if k = sid then some s else lookupSession sid rest

/-- `Map.delete` / `NodeCache.del` on a session map. -/
def eraseSession (sid : ℕ) : List (ℕ × ComparisonSession) →
    List (ℕ × ComparisonSession)
  | [] => []
  | kv :: rest =>
    if kv.1 = sid then eraseSession sid rest else kv :: eraseSession sid rest

/-- `Map.set` / `NodeCache.set` on a session map. -/
def setSession (sid : ℕ) (s : ComparisonSession)
    (l : List (ℕ × ComparisonSession)) : List (ℕ × ComparisonSession) :=
  (sid, s) :: eraseSession sid l

/-- `ComparisonEngine.prepareNextComparison` (comparisonEngine.ts, lines
105-140): ask `findInsertionPosition` for the next step; either complete the
session or load the two movies of the pending comparison. The JS code
mutates the session object in place; the model returns the updated session. -/
def prepareNextComparison (movies : List MovieDoc) (db : List DbRanking)
    (session : ComparisonSession) : Except String ComparisonSession :=
  let existingRankings := (getRankingsInCategory session.userId session.category db).map
    (fun r => RankEntry.mk r.movieId r.rankInCategory)
  match findInsertionPosition session.state existingRankings with
  | .final p => .ok { session with completed := true, finalPosition := some p }
  | .compare movieToCompare =>
    match movies.find? (fun m => m.movieId == session.newMovieId),
          movies.find? (fun m => m.movieId == movieToCompare.movieId) with
    | some newMovie, some comparisonMovie =>
        .ok { session with
              currentComparison := some (newMovie.movieId, comparisonMovie.movieId)
              state := { session.state with
                currentComparisonIndex := some movieToCompare.rankInCategory } }
    | _, _ => .error "Movie not found for comparison"

/-- `ComparisonEngine.startComparisonSession` (comparisonEngine.ts, lines
32-103). The session id (in JS derived from user id, TMDB id and
`Date.now()`) is passed explicitly. Note the JS stores the session object by
reference in both the map and the cache before `prepareNextComparison`
mutates it, so both stores observe the prepared session. -/
def startComparisonSession (es : EngineState) (sessionId userId tmdbId : ℕ)
    (category : Category) : Except String (EngineState × ComparisonSession) :=
  match es.movies.find? (fun m => m.tmdbId == tmdbId) with
  | none => .error "Movie not found in database"
  | some movie =>
    match es.db.find? (fun r => r.userId == userId && r.movieId == movie.movieId) with
    | some _ => .error "Movie already ranked by user"
    | none =>
      let existingRankings := getRankingsInCategory userId category es.db
      if existingRankings.length = 0 then
        let session : ComparisonSession :=
          { id := sessionId
            userId := userId
            newMovieTmdbId := tmdbId
            newMovieId := movie.movieId
            category := category
            state := { category := category
                       userId := userId
                       newMovieId := movie.movieId
                       searchRange := ⟨1, 1⟩
                       comparisons := [] }
            completed := true
            finalPosition := some 1 }
        .ok ({ es with sessions := setSession sessionId session es.sessions }, session)
      else
        let state : BinarySearchState :=
          { category := category
            userId := userId
            newMovieId := movie.movieId
            searchRange := ⟨1, (existingRankings.length : ℤ)⟩
            comparisons := [] }
        let session : ComparisonSession :=
          { id := sessionId
            userId := userId
            newMovieTmdbId := tmdbId
            newMovieId := movie.movieId
            category := category
            state := state
            completed := false }
        match prepareNextComparison es.movies es.db session with
        | .error msg => .error msg
        | .ok prepared =>
            .ok ({ es with
                   sessions := setSession sessionId prepared es.sessions
                   cache := setSession sessionId prepared es.cache }, prepared)

/-- Modelled from the spec: the external catalog collaborator's
`lookupByExternalId(id) -> Item` (spec §6); its implementation (the TMDB
service) is outside the ranking engine. It resolves an external numeric id
when the catalog knows the item. -/
def catalogLookupByExternalId (catalog : List ℕ) (tmdbId : ℕ) : Option ℕ :=
  catalog.find? (fun t => t == tmdbId)

/-- The `winner` request parameter of `submitComparison`. -/
inductive WinnerChoice : Type
  | movie1
  | movie2
  | tie
deriving DecidableEq, Repr

/-- `ComparisonEngine.submitComparison` (comparisonEngine.ts, lines 142-177).
Reads the session from the in-memory map only (no cache fallback). -/
def submitComparison (es : EngineState) (sessionId : ℕ) (winner : WinnerChoice) :
    Except String (EngineState × ComparisonSession) :=
  match lookupSession sessionId es.sessions with
  | none => .error "Session not found"
  | some session =>
    if session.completed then .error "Session already completed"
    else match session.currentComparison with
    | none => .error "No comparison available"
    | some currentComparison =>
      let comparisonResult : CompResult :=
        { winner := match winner with
            | .movie1 => .new
            | .movie2 => .existing
            | .tie => .tie
          newMovieId := session.newMovieId
          existingMovieId := currentComparison.2 }
      let session1 :=
        { session with state := processComparisonResult session.state comparisonResult }
      match prepareNextComparison es.movies es.db session1 with
      | .error msg => .error msg
      | .ok prepared =>
          .ok ({ es with
                 sessions := setSession sessionId prepared es.sessions
                 cache := setSession sessionId prepared es.cache }, prepared)

/-- `ComparisonEngine.getSession` (comparisonEngine.ts, lines 255-264):
in-memory map first, then the secondary cache; a cache hit is re-inserted
into the map. -/
def getSession (es : EngineState) (sessionId : ℕ) :
    Option ComparisonSession × EngineState :=
  match lookupSession sessionId es.sessions with
  | some session => (some session, es)
  | none =>
    match lookupSession sessionId es.cache with
    | some session =>
        (some session, { es with sessions := setSession sessionId session es.sessions })
    | none => (none, es)

/-- `ComparisonEngine.cancelSession` (comparisonEngine.ts, lines 272-274):
`this.sessions.delete(sessionId)` — the in-memory map only; the secondary
cache entry is untouched. Returns `true` iff the map held the session. -/
def cancelSession (es : EngineState) (sessionId : ℕ) : Bool × EngineState :=
  ((lookupSession sessionId es.sessions).isSome,
   { es with sessions := eraseSession sessionId es.sessions })

/-- The store operations `completeRanking` performs, in execution order. -/
inductive CommitOp : Type
  | shiftDown (fromRank : ℤ)
  | computeRating (position total : ℤ)
  | saveRanking (movieId : ℕ) (position : ℤ)
  | recalcCategory
  | queueStats (movieId : ℕ)
  | invalidateUserRankings
  | dropSession (sessionId : ℕ)
deriving DecidableEq, Repr

/-- The `new UserRanking({...})` document built by `completeRanking`
(comparisonEngine.ts, lines 212-232), with its comparison history derived
from the session's outcome log. -/
def newRankingDoc (session : ComparisonSession) (position : ℤ) (rating : ℚ) :
    DbRanking :=
  { userId := session.userId
    movieId := session.newMovieId
    tmdbId := session.newMovieTmdbId
    category := session.category
    rankInCategory := position
    calculatedRating := rating
    wonAgainst := (session.state.comparisons.filter
      (fun c => c.winner == .new)).map (fun c => c.existingMovieId)
    lostTo := (session.state.comparisons.filter
      (fun c => c.winner == .existing)).map (fun c => c.existingMovieId)
    tiedWith := (session.state.comparisons.filter
      (fun c => c.winner == .tie)).map (fun c => c.existingMovieId) }

/-- `ComparisonEngine.completeRanking` (comparisonEngine.ts, lines 179-252).
Returns the updated stores, the saved document and the ordered list of
store operations it performed. The JS guard `!session.completed ||
!session.finalPosition` also treats a final position of `0` as missing
(JS falsiness), hence the `finalPosition = 0` disjunct. -/
def completeRanking (es : EngineState) (sessionId : ℕ) :
    Except String (EngineState × DbRanking × List CommitOp) :=
  match lookupSession sessionId es.sessions with
  | none => .error "Session not found"
  | some session =>
    match session.finalPosition with
    | none => .error "Session not completed"
    | some finalPosition =>
      if session.completed = false ∨ finalPosition = 0 then
        .error "Session not completed"
      else
        let db1 := shiftRankingsDown session.userId session.category
          finalPosition es.db
        match es.movies.find? (fun m => m.movieId == session.newMovieId) with
        | none => .error "Movie not found"
        | some movie =>
          let totalInCategory : ℤ :=
            ((getMovieCountInCategory session.userId session.category db1 : ℕ) : ℤ) + 1
          match calculateRating finalPosition totalInCategory session.category with
          | .error msg => .error msg
          | .ok calculatedRating =>
            let newRanking := newRankingDoc session finalPosition calculatedRating
            let db2 := db1 ++ [newRanking]
            match recalculateRatingsForCategory session.userId session.category db2 with
            | .error msg => .error msg
            | .ok db3 =>
              .ok ({ es with
                     db := db3
                     sessions := eraseSession sessionId es.sessions
                     cache := eraseSession sessionId es.cache },
                   newRanking,
                   [ .shiftDown finalPosition,
                     .computeRating finalPosition totalInCategory,
                     .saveRanking newRanking.movieId finalPosition,
                     .recalcCategory,
                     .queueStats movie.movieId,
                     .invalidateUserRankings,
                     .dropSession sessionId ])

/-- On a collapsed range (`low > high`) and a nonempty category,
`findInsertionPosition` immediately returns `low` as the final position. -/
theorem findInsertionPosition_of_resolved (state : BinarySearchState)
    (rankings : List RankEntry) (hne : rankings ≠ [])
    (h : state.searchRange.high < state.searchRange.low) :
    findInsertionPosition state rankings = .final state.searchRange.low := by
  have h0 : ¬ rankings.length = 0 := by simpa [List.length_eq_zero] using hne
  rw [findInsertionPosition]
  rw [if_neg h0, dif_pos (by omega : state.searchRange.low > state.searchRange.high)]

/-- One processed comparison keeps `low ≤ high + 1`, provided the session was
still searching (`low ≤ high`) when the result came in. -/
theorem processComparisonResult_inv (s : BinarySearchState) (r : CompResult)
    (h : s.searchRange.low ≤ s.searchRange.high) :
    (processComparisonResult s r).searchRange.low ≤
      (processComparisonResult s r).searchRange.high + 1 := by
  obtain ⟨w, a, b⟩ := r
  cases w <;> simp [processComparisonResult, searchMidpoint] <;> omega

/-- `low ≤ high + 1` is preserved by any run of submitted comparisons. -/
theorem runComparisons_inv (l : List CompResult) (s : BinarySearchState)
    (h : s.searchRange.low ≤ s.searchRange.high + 1) :
    (runComparisons s l).searchRange.low ≤
      (runComparisons s l).searchRange.high + 1 := by
  induction l generalizing s with
  | nil => exact h
  | cons r rs ih =>
      rw [runComparisons]
      by_cases hg : s.searchRange.low ≤ s.searchRange.high
      · rw [if_pos hg]
        exact ih _ (processComparisonResult_inv s r hg)
      · rw [if_neg hg]
        exact h

/-- C3: for every session started with search range `[1, N]` (`N ≥ 1`, the
size of the category) and every sequence of submitted comparison results, the
invariant `low ≤ high + 1` holds after every application of
`processComparisonResult`; and whenever `low > high`,
`findInsertionPosition` resolves with exactly one final position, `low`. -/
theorem searchRange_invariant_and_resolution (N : ℤ) (hN : 1 ≤ N)
    (init : BinarySearchState) (hinit : init.searchRange = ⟨1, N⟩)
    (results : List CompResult) (k : ℕ)
    (rankings : List RankEntry) (hlen : (rankings.length : ℤ) = N) :
    ((runComparisons init (results.take k)).searchRange.low ≤
      (runComparisons init (results.take k)).searchRange.high + 1) ∧
    (∀ s : BinarySearchState,
      s.searchRange.high < s.searchRange.low →
      findInsertionPosition s rankings = .final s.searchRange.low) := by
  constructor
  · exact runComparisons_inv _ _ (by rw [hinit]; dsimp; omega)
  · intro s hs
    refine findInsertionPosition_of_resolved s rankings ?_ hs
    intro he
    rw [he] at hlen
    simp at hlen
    omega

/-- Witness for C3 at `N = 2` with one submitted `new` win. -/
theorem searchRange_invariant_and_resolution_witness :
    ((runComparisons ⟨.liked, 1, 5, ⟨1, 2⟩, [], none⟩
        (List.take 1 [⟨.new, 5, 10⟩])).searchRange.low ≤
      (runComparisons ⟨.liked, 1, 5, ⟨1, 2⟩, [], none⟩
        (List.take 1 [⟨.new, 5, 10⟩])).searchRange.high + 1) ∧
    (∀ s : BinarySearchState,
      s.searchRange.high < s.searchRange.low →
      findInsertionPosition s [⟨10, 1⟩, ⟨20, 2⟩] = .final s.searchRange.low) :=
  searchRange_invariant_and_resolution 2 (by norm_num)
    ⟨.liked, 1, 5, ⟨1, 2⟩, [], none⟩ rfl [⟨.new, 5, 10⟩] 1
    [⟨10, 1⟩, ⟨20, 2⟩] (by simp)

/-- C2: submitting a `tie` while a comparison against the entry at the
midpoint is pending collapses the range (`low > high`) and makes
`findInsertionPosition` resolve at `mid + 1` without requesting any further
comparison. -/
theorem tie_resolves_immediately_at_mid_succ (state : BinarySearchState)
    (existingRankings : List RankEntry) (result : CompResult) (entry : RankEntry)
    (hsearch : state.searchRange.low ≤ state.searchRange.high)
    (hmid : existingRankings.find?
      (fun r => r.rankInCategory == searchMidpoint state.searchRange) = some entry)
    (htie : result.winner = .tie) :
    (processComparisonResult state result).searchRange.high <
        (processComparisonResult state result).searchRange.low ∧
    findInsertionPosition (processComparisonResult state result) existingRankings =
        .final (searchMidpoint state.searchRange + 1) := by
  have hne : existingRankings ≠ [] := by
    intro he
    rw [he] at hmid
    simp at hmid
  obtain ⟨w, a, b⟩ := result
  cases htie
  have hproc : (processComparisonResult state ⟨.tie, a, b⟩).searchRange =
      ⟨searchMidpoint state.searchRange + 1, searchMidpoint state.searchRange⟩ := by
    simp [processComparisonResult]
  refine ⟨by rw [hproc]; dsimp; omega, ?_⟩
  rw [findInsertionPosition_of_resolved _ _ hne (by rw [hproc]; dsimp; omega), hproc]

/-- Witness for C2: range `[1, 3]`, tie against the entry at position 2. -/
theorem tie_resolves_immediately_witness :
    (processComparisonResult ⟨.liked, 1, 5, ⟨1, 3⟩, [], none⟩
        ⟨.tie, 5, 20⟩).searchRange.high <
      (processComparisonResult ⟨.liked, 1, 5, ⟨1, 3⟩, [], none⟩
        ⟨.tie, 5, 20⟩).searchRange.low ∧
    findInsertionPosition
        (processComparisonResult ⟨.liked, 1, 5, ⟨1, 3⟩, [], none⟩ ⟨.tie, 5, 20⟩)
        [⟨10, 1⟩, ⟨20, 2⟩, ⟨30, 3⟩] =
      .final (searchMidpoint (⟨1, 3⟩ : SearchRange) + 1) :=
  tie_resolves_immediately_at_mid_succ
    ⟨.liked, 1, 5, ⟨1, 3⟩, [], none⟩ [⟨10, 1⟩, ⟨20, 2⟩, ⟨30, 3⟩]
    ⟨.tie, 5, 20⟩ ⟨20, 2⟩ (by decide) (by decide) rfl

/-- `(high - low + 1).toNat`: the number of candidate positions left. -/
def rangeSize (r : SearchRange) : ℕ := (r.high - r.low + 1).toNat

/-- Each processed comparison at least halves the candidate range. -/
theorem rangeSize_step (s : BinarySearchState) (r : CompResult)
    (h : s.searchRange.low ≤ s.searchRange.high) :
    rangeSize (processComparisonResult s r).searchRange ≤
      rangeSize s.searchRange / 2 := by
  obtain ⟨w, a, b⟩ := r
  cases w <;> simp [processComparisonResult, searchMidpoint, rangeSize] <;> omega

/-- After `k` submitted comparisons the candidate range has size at most
`N / 2 ^ k`. -/
theorem rangeSize_run (l : List CompResult) (s : BinarySearchState) :
    rangeSize (runComparisons s l).searchRange ≤
      rangeSize s.searchRange / 2 ^ l.length := by
  induction l generalizing s with
  | nil => simp [runComparisons]
  | cons r rs ih =>
      rw [runComparisons]
      by_cases hg : s.searchRange.low ≤ s.searchRange.high
      · rw [if_pos hg]
        calc rangeSize (runComparisons (processComparisonResult s r) rs).searchRange
            ≤ rangeSize (processComparisonResult s r).searchRange / 2 ^ rs.length := ih _
          _ ≤ rangeSize s.searchRange / 2 / 2 ^ rs.length :=
              Nat.div_le_div_right (rangeSize_step s r hg)
          _ = rangeSize s.searchRange / 2 ^ (rs.length + 1) := by
              rw [Nat.div_div_eq_div_mul, pow_succ']
      · rw [if_neg hg]
        have h0 : rangeSize s.searchRange = 0 := by
          simp only [rangeSize]
          omega
        simp [h0, List.length_cons]

/-- C4: a binary-insertion search started with range `[1, N]` (`N ≥ 1`) is
resolved (`low > high`; a tie also collapses the range this way) after at
most `⌈log₂ N⌉ + 1` submitted comparisons, whatever the outcome sequence. -/
theorem binary_search_comparison_bound (N : ℕ) (hN : 1 ≤ N)
    (init : BinarySearchState) (hinit : init.searchRange = ⟨1, (N : ℤ)⟩)
    (results : List CompResult)
    (hlen : Nat.clog 2 N + 1 ≤ results.length) :
    (runComparisons init results).searchRange.high <
      (runComparisons init results).searchRange.low := by
  have hrun := rangeSize_run results init
  have hsize : rangeSize init.searchRange = N := by
    rw [hinit]
    simp only [rangeSize]
    omega
  have hpow : N < 2 ^ results.length := by
    calc N ≤ 2 ^ Nat.clog 2 N := Nat.le_pow_clog (by norm_num) N
      _ < 2 ^ (Nat.clog 2 N + 1) := Nat.pow_lt_pow_right (by norm_num) (Nat.lt_succ_self _)
      _ ≤ 2 ^ results.length := Nat.pow_le_pow_right (by norm_num) hlen
  rw [hsize] at hrun
  rw [Nat.div_eq_of_lt hpow] at hrun
  simp only [rangeSize, Nat.le_zero] at hrun
  omega

/-- Witness for C4 at `N = 1` with a single `existing` outcome. -/
theorem binary_search_comparison_bound_witness :
    (runComparisons ⟨.liked, 1, 5, ⟨1, 1⟩, [], none⟩
        [⟨.existing, 5, 10⟩]).searchRange.high <
      (runComparisons ⟨.liked, 1, 5, ⟨1, 1⟩, [], none⟩
        [⟨.existing, 5, 10⟩]).searchRange.low :=
  binary_search_comparison_bound 1 (by norm_num) _ rfl _
    (by simp [Nat.clog_one_right])

/-- C1: for every category with its fixed band and every position
`1 ≤ p ≤ N`, `calculateRating` returns exactly `top` when `N = 1`, and for
`N ≥ 2` returns `top - (p-1)·(top-bottom)/(N-1)` rounded to two decimals. -/
theorem calculateRating_interpolation_spec (c : Category) (p N : ℤ)
    (hp : 1 ≤ p) (hpN : p ≤ N) :
    calculateRating p N c =
      .ok (if N = 1 then specBandTop c
        else roundTo2 (specBandTop c -
          ((p : ℚ) - 1) * (specBandTop c - specBandBottom c) / ((N : ℚ) - 1))) := by
  have hN0 : ¬ N = 0 := by omega
  rcases eq_or_ne N 1 with h1 | h1
  · subst h1
    cases c <;> simp [calculateRating, specBandTop, categoryTop]
  · cases c <;>
      simp [calculateRating, hN0, h1, specBandTop, specBandBottom,
        categoryTop, categoryBottom, mul_comm]

/-- Witness for C1 at `p = 2`, `N = 3`, category `ok`. -/
theorem calculateRating_interpolation_spec_witness :
    calculateRating 2 3 .ok =
      .ok (if (3 : ℤ) = 1 then specBandTop .ok
        else roundTo2 (specBandTop .ok -
          ((2 : ℚ) - 1) * (specBandTop .ok - specBandBottom .ok) / ((3 : ℚ) - 1))) := by
  have h := calculateRating_interpolation_spec .ok 2 3 (by norm_num) (by norm_num)
  simpa using h

/-- C7: with an empty category (`totalInCategory = 0`) the calculator always
throws its precondition error and never returns a number. -/
theorem calculateRating_zero_total_errors (rank : ℤ) (c : Category) :
    calculateRating rank 0 c =
      .error "Cannot calculate rating with 0 movies in category" := by
  simp [calculateRating]

/-- Counterexample to C6 as stated: in the `liked` band with `N = 352`,
positions 176 and 177 interpolate to 8.254986… and 8.245014…, both of which
round to 8.25, so strict monotonicity does not survive the rounding step. -/
theorem rating_strict_monotonicity_fails :
    (1 : ℤ) ≤ 176 ∧ (176 : ℤ) + 1 ≤ 352 ∧
    calculateRating 176 352 .liked = .ok 8.25 ∧
    calculateRating 177 352 .liked = .ok 8.25 := by
  refine ⟨by norm_num, by norm_num, ?_, ?_⟩ <;>
    norm_num [calculateRating, categoryTop, categoryBottom, roundTo2, jsRound]

/-- Rounding to two decimals is monotone. -/
theorem roundTo2_mono {x y : ℚ} (h : x ≤ y) : roundTo2 x ≤ roundTo2 y := by
  unfold roundTo2 jsRound
  have hf : (⌊x * 100 + 1 / 2⌋ : ℚ) ≤ (⌊y * 100 + 1 / 2⌋ : ℚ) := by
    exact_mod_cast Int.floor_mono (by linarith)
  exact (div_le_div_right (by norm_num : (0 : ℚ) < 100)).mpr hf

/-- C6 (amended): for fixed `N ≥ 2` the rating is monotonically
non-increasing in position; strictness can be lost to the two-decimal
rounding (see the counterexample at `N = 352`). -/
theorem rating_monotone_nonincreasing (c : Category) (N p : ℤ)
    (hN : 2 ≤ N) (hp : 1 ≤ p) (hpN : p + 1 ≤ N) :
    ∃ q₁ q₂ : ℚ, calculateRating p N c = .ok q₁ ∧
      calculateRating (p + 1) N c = .ok q₂ ∧ q₂ ≤ q₁ := by
  have hN0 : ¬ N = 0 := by omega
  have hN1 : ¬ N = 1 := by omega
  refine ⟨roundTo2 (categoryTop c -
      ((p : ℚ) - 1) * (categoryTop c - categoryBottom c) / ((N : ℚ) - 1)),
    roundTo2 (categoryTop c -
      (p : ℚ) * (categoryTop c - categoryBottom c) / ((N : ℚ) - 1)),
    by simp [calculateRating, hN0, hN1],
    by simp [calculateRating, hN0, hN1], roundTo2_mono ?_⟩
  have hd : 0 ≤ categoryTop c - categoryBottom c := by
    cases c <;> norm_num [categoryTop, categoryBottom]
  have hden : (0 : ℚ) < (N : ℚ) - 1 := by
    have : (2 : ℚ) ≤ (N : ℚ) := by exact_mod_cast hN
    linarith
  have hnum : ((p : ℚ) - 1) * (categoryTop c - categoryBottom c) ≤
      (p : ℚ) * (categoryTop c - categoryBottom c) := by
    nlinarith
  have hq := (div_le_div_right hden).mpr hnum
  linarith

/-- Witness for the amended C6 at `c = liked`, `N = 3`, `p = 1`. -/
theorem rating_monotone_nonincreasing_witness :
    ∃ q₁ q₂ : ℚ, calculateRating 1 3 .liked = .ok q₁ ∧
      calculateRating (1 + 1) 3 .liked = .ok q₂ ∧ q₂ ≤ q₁ :=
  rating_monotone_nonincreasing .liked 3 1 (by norm_num) (by norm_num) (by norm_num)

/-- Counterexample to C10 as stated: the empty rankings list contains no
entry at `mid = 2` of range `[2, 3]`, yet `findInsertionPosition` resolves
at position 1 (its empty-category branch fires first), not at `mid`. -/
theorem gap_empty_rankings_counterexample :
    (⟨2, 3⟩ : SearchRange).low ≤ (⟨2, 3⟩ : SearchRange).high ∧
    searchMidpoint ⟨2, 3⟩ = 2 ∧
    ([] : List RankEntry).find?
      (fun r => r.rankInCategory == searchMidpoint ⟨2, 3⟩) = none ∧
    findInsertionPosition ⟨.liked, 1, 5, ⟨2, 3⟩, [], none⟩ [] = .final 1 ∧
    FindResult.final 1 ≠ .final (searchMidpoint ⟨2, 3⟩) := by
  refine ⟨by decide, by decide, rfl, ?_, by decide⟩
  rw [findInsertionPosition]
  simp

/-- C10 (amended): for every search state with `low ≤ high` and every
NONEMPTY rankings list with no entry at the midpoint (a gap in the dense
position invariant), `findInsertionPosition` neither fails nor requests a
comparison: it resolves immediately with `finalPosition = mid`. -/
theorem gap_resolves_at_midpoint (state : BinarySearchState)
    (rankings : List RankEntry) (hne : rankings ≠ [])
    (hs : state.searchRange.low ≤ state.searchRange.high)
    (hgap : rankings.find?
      (fun r => r.rankInCategory == searchMidpoint state.searchRange) = none) :
    findInsertionPosition state rankings = .final (searchMidpoint state.searchRange) := by
  have h0 : ¬ rankings.length = 0 := by simpa [List.length_eq_zero] using hne
  rw [findInsertionPosition, if_neg h0, dif_neg (by omega)]
  simp [hgap]

/-- Witness for the amended C10: range `[1, 4]`, positions `{1, 3, 4}`
present, gap at `mid = 2`. -/
theorem gap_resolves_at_midpoint_witness :
    findInsertionPosition ⟨.liked, 1, 5, ⟨1, 4⟩, [], none⟩
      [⟨10, 1⟩, ⟨30, 3⟩, ⟨40, 4⟩] = .final (searchMidpoint ⟨1, 4⟩) :=
  gap_resolves_at_midpoint ⟨.liked, 1, 5, ⟨1, 4⟩, [], none⟩
    [⟨10, 1⟩, ⟨30, 3⟩, ⟨40, 4⟩] (by decide) (by decide) (by decide)


/-- A key just deleted from a session map no longer resolves. -/
theorem lookupSession_erase (sid : ℕ) (l : List (ℕ × ComparisonSession)) :
    lookupSession sid (eraseSession sid l) = none := by
  induction l with
  | nil => rfl
  | cons kv rest ih =>
      by_cases hk : kv.1 = sid
      · simpa [eraseSession, hk] using ih
      · simp [eraseSession, hk, lookupSession, ih]

/-- Counterexample to C9 as stated: with a session present in both the
in-memory map and the secondary cache, `cancelSession` returns `true`, yet
`getSession` still returns the session — `cancelSession` never touches the
cache and `getSession` falls back to it. -/
theorem cancelSession_not_purged_counterexample :
    (cancelSession
      ⟨[], [], [(1, ⟨1, 7, 100, 20, .liked, ⟨.liked, 7, 20, ⟨1, 1⟩, [], none⟩,
          some (20, 10), false, none⟩)],
        [(1, ⟨1, 7, 100, 20, .liked, ⟨.liked, 7, 20, ⟨1, 1⟩, [], none⟩,
            some (20, 10), false, none⟩)]⟩ 1).1 = true ∧
    (getSession
      (cancelSession
        ⟨[], [], [(1, ⟨1, 7, 100, 20, .liked, ⟨.liked, 7, 20, ⟨1, 1⟩, [], none⟩,
            some (20, 10), false, none⟩)],
          [(1, ⟨1, 7, 100, 20, .liked, ⟨.liked, 7, 20, ⟨1, 1⟩, [], none⟩,
              some (20, 10), false, none⟩)]⟩ 1).2 1).1 =
      some ⟨1, 7, 100, 20, .liked, ⟨.liked, 7, 20, ⟨1, 1⟩, [], none⟩,
        some (20, 10), false, none⟩ := by
  constructor <;> rfl

/-- C9 (amended): after `cancelSession` returns `true` the session is gone
from the in-memory map, so a subsequent `submitComparison` fails with
"Session not found"; but the secondary cache is not purged, so a subsequent
`getSession` returns whatever the cache still holds (in particular the
cancelled session). -/
theorem cancelSession_removes_from_memory (es : EngineState) (sid : ℕ)
    (w : WinnerChoice) (h : (cancelSession es sid).1 = true) :
    lookupSession sid ((cancelSession es sid).2).sessions = none ∧
    submitComparison (cancelSession es sid).2 sid w = .error "Session not found" ∧
    (getSession (cancelSession es sid).2 sid).1 = lookupSession sid es.cache := by
  have hl : lookupSession sid ((cancelSession es sid).2).sessions = none := by
    simpa [cancelSession] using lookupSession_erase sid es.sessions
  refine ⟨hl, ?_, ?_⟩
  · simp [submitComparison, hl]
  · cases hc : lookupSession sid es.cache <;>
      simp [getSession, cancelSession, lookupSession_erase, hc]

/-- Witness for the amended C9, on the same two-store state as the
counterexample but with a differently keyed session. -/
theorem cancelSession_removes_from_memory_witness :
    lookupSession 2 ((cancelSession
      ⟨[], [], [(2, ⟨2, 8, 100, 21, .ok, ⟨.ok, 8, 21, ⟨1, 1⟩, [], none⟩,
          some (21, 11), false, none⟩)], []⟩ 2).2).sessions = none ∧
    submitComparison (cancelSession
      ⟨[], [], [(2, ⟨2, 8, 100, 21, .ok, ⟨.ok, 8, 21, ⟨1, 1⟩, [], none⟩,
          some (21, 11), false, none⟩)], []⟩ 2).2 2 .movie1 =
      .error "Session not found" ∧
    (getSession (cancelSession
      ⟨[], [], [(2, ⟨2, 8, 100, 21, .ok, ⟨.ok, 8, 21, ⟨1, 1⟩, [], none⟩,
          some (21, 11), false, none⟩)], []⟩ 2).2 2).1 =
      lookupSession 2
        (⟨[], [], [(2, ⟨2, 8, 100, 21, .ok, ⟨.ok, 8, 21, ⟨1, 1⟩, [], none⟩,
            some (21, 11), false, none⟩)], []⟩ : EngineState).cache :=
  cancelSession_removes_from_memory _ 2 .movie1 rfl

/-- Counterexample to C8 as stated: the external catalog knows item 42, yet
`startComparisonSession` fails with its "not found" error because the item
is missing from the local `Movie` store — the engine never consults the
catalog. -/
theorem startSession_fails_despite_catalog :
    catalogLookupByExternalId [42] 42 = some 42 ∧
    startComparisonSession ⟨[], [], [], []⟩ 1 7 42 .liked =
      .error "Movie not found in database" := by
  constructor <;> rfl

/-- C8 (amended): `startComparisonSession` resolves the new item from the
local `Movie` store only; whenever the TMDB id is absent locally it fails
session start with "Movie not found in database", irrespective of the
external catalog, which it never queries. -/
theorem startComparisonSession_requires_local_movie (es : EngineState)
    (sid u t : ℕ) (c : Category)
    (h : es.movies.find? (fun m => m.tmdbId == t) = none) :
    startComparisonSession es sid u t c = .error "Movie not found in database" := by
  simp [startComparisonSession, h]

/-- Witness for the amended C8 on an empty local movie store. -/
theorem startComparisonSession_requires_local_movie_witness :
    startComparisonSession ⟨[], [], [], []⟩ 3 9 55 .disliked =
      .error "Movie not found in database" :=
  startComparisonSession_requires_local_movie ⟨[], [], [], []⟩ 3 9 55 .disliked rfl

/-- `calculateRating` only throws on an empty category: for any nonzero
total it returns a value. -/
theorem calculateRating_ok (rank total : ℤ) (c : Category) (h : ¬ total = 0) :
    ∃ q, calculateRating rank total c = .ok q := by
  rcases eq_or_ne total 1 with h1 | h1
  · exact ⟨categoryTop c, by simp [calculateRating, h1]⟩
  · exact ⟨roundTo2 (categoryTop c -
        ((rank : ℚ) - 1) * (categoryTop c - categoryBottom c) / ((total : ℚ) - 1)),
      by simp [calculateRating, h, h1]⟩

/-- The bulk rating update succeeds whenever the category total it is given
is nonzero. -/
theorem applyRatings_ok (u : ℕ) (c : Category) (total : ℤ) (h : ¬ total = 0)
    (l : List DbRanking) : ∃ l', applyRatings u c total l = .ok l' := by
  induction l with
  | nil => exact ⟨[], rfl⟩
  | cons r rest ih =>
      obtain ⟨l', hl'⟩ := ih
      by_cases hr : r.userId = u ∧ r.category = c
      · obtain ⟨q, hq⟩ := calculateRating_ok r.rankInCategory total c h
        exact ⟨{ r with calculatedRating := q } :: l', by
          simp only [applyRatings, if_pos hr, hq, hl', Except.map]⟩
      · exact ⟨r :: l', by simp only [applyRatings, if_neg hr, hl', Except.map]⟩

/-- Appending an entry of the same (user, category) bucket raises the
bucket's count by one. -/
theorem getMovieCount_append_self (u : ℕ) (c : Category) (l : List DbRanking)
    (e : DbRanking) (hu : e.userId = u) (hc : e.category = c) :
    getMovieCountInCategory u c (l ++ [e]) = getMovieCountInCategory u c l + 1 := by
  simp [getMovieCountInCategory, List.filter_append, hu, hc]

/-- C5: on a completed session with final position `p`, `completeRanking`
commits in exactly this order: shift positions `≥ p` down, compute the new
entry's rating from the post-insertion category size (the count after the
shift plus one), persist the new entry at `p` with its comparison history,
recompute ratings for the whole category, and finally discard the session
(from both the in-memory map and the cache); the stats refresh and cache
invalidation sit between the recomputation and the discard. -/
theorem completeRanking_commit_order (es : EngineState) (sessionId : ℕ)
    (session : ComparisonSession) (p : ℤ) (movie : MovieDoc)
    (hsess : lookupSession sessionId es.sessions = some session)
    (hdone : session.completed = true)
    (hpos : session.finalPosition = some p)
    (hp0 : ¬ p = 0)
    (hmov : es.movies.find? (fun m => m.movieId == session.newMovieId) = some movie) :
    ∃ q db3,
      calculateRating p
        (((getMovieCountInCategory session.userId session.category
            (shiftRankingsDown session.userId session.category p es.db) : ℕ) : ℤ) + 1)
        session.category = .ok q ∧
      recalculateRatingsForCategory session.userId session.category
        (shiftRankingsDown session.userId session.category p es.db ++
          [newRankingDoc session p q]) = .ok db3 ∧
      completeRanking es sessionId =
        .ok ({ es with
               db := db3
               sessions := eraseSession sessionId es.sessions
               cache := eraseSession sessionId es.cache },
             newRankingDoc session p q,
             [ .shiftDown p,
               .computeRating p
                 (((getMovieCountInCategory session.userId session.category
                     (shiftRankingsDown session.userId session.category p es.db) : ℕ) : ℤ) + 1),
               .saveRanking session.newMovieId p,
               .recalcCategory,
               .queueStats movie.movieId,
               .invalidateUserRankings,
               .dropSession sessionId ]) := by
  have htot0 : ¬ (((getMovieCountInCategory session.userId session.category
      (shiftRankingsDown session.userId session.category p es.db) : ℕ) : ℤ) + 1) = 0 := by
    omega
  obtain ⟨q, hq⟩ := calculateRating_ok p _ session.category htot0
  have hcnt2 : getMovieCountInCategory session.userId session.category
      (shiftRankingsDown session.userId session.category p es.db ++
        [newRankingDoc session p q]) =
      getMovieCountInCategory session.userId session.category
        (shiftRankingsDown session.userId session.category p es.db) + 1 :=
    getMovieCount_append_self _ _ _ _ rfl rfl
  have h20 : ¬ ((getMovieCountInCategory session.userId session.category
      (shiftRankingsDown session.userId session.category p es.db ++
        [newRankingDoc session p q]) : ℕ) : ℤ) = 0 := by
    rw [hcnt2]
    push_cast
    omega
  obtain ⟨db3, h3⟩ := applyRatings_ok session.userId session.category _ h20 _
  have hrec : recalculateRatingsForCategory session.userId session.category
      (shiftRankingsDown session.userId session.category p es.db ++
        [newRankingDoc session p q]) = .ok db3 := h3
  refine ⟨q, db3, hq, hrec, ?_⟩
  have hguard : ¬ (session.completed = false ∨ p = 0) := by
    simp [hdone, hp0]
  simp only [completeRanking, hsess, hpos, if_neg hguard, hmov, hq, hrec]
  rfl

/-- Witness for C5: a one-entry `liked` category, a completed session for a
second movie with final position 1 and one recorded win. -/
theorem completeRanking_commit_order_witness :
    ∃ q db3,
      calculateRating 1
        (((getMovieCountInCategory 7 .liked
            (shiftRankingsDown 7 .liked 1
              [⟨7, 10, 100, .liked, 1, 10, [], [], []⟩]) : ℕ) : ℤ) + 1)
        .liked = .ok q ∧
      recalculateRatingsForCategory 7 .liked
        (shiftRankingsDown 7 .liked 1 [⟨7, 10, 100, .liked, 1, 10, [], [], []⟩] ++
          [newRankingDoc
            ⟨5, 7, 200, 20, .liked, ⟨.liked, 7, 20, ⟨1, 0⟩, [⟨.new, 20, 10⟩], none⟩,
              none, true, some 1⟩ 1 q]) = .ok db3 ∧
      completeRanking
        ⟨[⟨200, 20⟩], [⟨7, 10, 100, .liked, 1, 10, [], [], []⟩],
          [(5, ⟨5, 7, 200, 20, .liked,
            ⟨.liked, 7, 20, ⟨1, 0⟩, [⟨.new, 20, 10⟩], none⟩, none, true, some 1⟩)],
          [(5, ⟨5, 7, 200, 20, .liked,
            ⟨.liked, 7, 20, ⟨1, 0⟩, [⟨.new, 20, 10⟩], none⟩, none, true, some 1⟩)]⟩ 5 =
        .ok ({ (⟨[⟨200, 20⟩], [⟨7, 10, 100, .liked, 1, 10, [], [], []⟩],
                [(5, ⟨5, 7, 200, 20, .liked,
                  ⟨.liked, 7, 20, ⟨1, 0⟩, [⟨.new, 20, 10⟩], none⟩, none, true, some 1⟩)],
                [(5, ⟨5, 7, 200, 20, .liked,
                  ⟨.liked, 7, 20, ⟨1, 0⟩, [⟨.new, 20, 10⟩], none⟩, none, true, some 1⟩)]⟩ :
                EngineState) with
               db := db3
               sessions := eraseSession 5
                 [(5, ⟨5, 7, 200, 20, .liked,
                   ⟨.liked, 7, 20, ⟨1, 0⟩, [⟨.new, 20, 10⟩], none⟩, none, true, some 1⟩)]
               cache := eraseSession 5
                 [(5, ⟨5, 7, 200, 20, .liked,
                   ⟨.liked, 7, 20, ⟨1, 0⟩, [⟨.new, 20, 10⟩], none⟩, none, true, some 1⟩)] },
             newRankingDoc
               ⟨5, 7, 200, 20, .liked, ⟨.liked, 7, 20, ⟨1, 0⟩, [⟨.new, 20, 10⟩], none⟩,
                 none, true, some 1⟩ 1 q,
             [ .shiftDown 1,
               .computeRating 1
                 (((getMovieCountInCategory 7 .liked
                     (shiftRankingsDown 7 .liked 1
                       [⟨7, 10, 100, .liked, 1, 10, [], [], []⟩]) : ℕ) : ℤ) + 1),
               .saveRanking 20 1,
               .recalcCategory,
               .queueStats 20,
               .invalidateUserRankings,
               .dropSession 5 ]) :=
  completeRanking_commit_order
    ⟨[⟨200, 20⟩], [⟨7, 10, 100, .liked, 1, 10, [], [], []⟩],
      [(5, ⟨5, 7, 200, 20, .liked,
        ⟨.liked, 7, 20, ⟨1, 0⟩, [⟨.new, 20, 10⟩], none⟩, none, true, some 1⟩)],
      [(5, ⟨5, 7, 200, 20, .liked,
        ⟨.liked, 7, 20, ⟨1, 0⟩, [⟨.new, 20, 10⟩], none⟩, none, true, some 1⟩)]⟩ 5
    ⟨5, 7, 200, 20, .liked, ⟨.liked, 7, 20, ⟨1, 0⟩, [⟨.new, 20, 10⟩], none⟩,
      none, true, some 1⟩ 1 ⟨200, 20⟩ rfl rfl rfl (by norm_num) rfl
